import Mathlib

/-!
# Scroll-driven 3D presentation: time mapper and visibility state machine

A shallow embedding of the scroll orchestration scripts

* `src/scripts/ui-animations.js` : the hysteresis visibility state machine,
* `src/scripts/animation.js`     : the scroll-to-clip-time mapper,
* `src/scripts/main.js`          : the scroll progress computation,
* `src/scripts/threejs-scene.js` : material assignment by object name and the
  camera's field of view under a change of aspect ratio.

JavaScript numbers are modelled as exact rationals (`ℚ`), so `Math.min` and
`Math.max` are `min` and `max` and comparisons are the order of `ℚ`.  The
module-level record `animationState` becomes an explicit value that every
function takes and returns.  The tweening library is modelled by what the
scripts ask of it: the set of timelines that are live (created and neither
killed nor completed), a supply of fresh timeline handles, and a chronological
log of the calls made.  The camera computation is written over an arbitrary
ordered field with `Math.tan`, `Math.atan` and `Math.PI` as parameters, and is
studied over the reals.
-/

namespace ScrollAnimation

/-! ## `ui-animations.js` -/

/-- Handle of a DOM element returned by `document.querySelector`. -/
abbrev DomNode := Nat

/-- Handle of a timeline returned by `gsap.timeline`. -/
abbrev TimelineId := Nat

/-- The record cached by `initializeElements`; a selector that matches nothing
yields `null`, here `none`. -/
structure Elements where
  title : Option DomNode
  text : Option DomNode
  actions : Option DomNode
deriving DecidableEq, Repr

/-- The module-level `animationState` record. -/
structure AnimationState where
  isVisible : Bool
  revealThreshold : ℚ
  hideThreshold : ℚ
  elements : Option Elements
  currentTimeline : Option TimelineId
  isAnimating : Bool
deriving DecidableEq, Repr

/-- Easing curves used by the two transitions. -/
inductive Ease where
  | power3Out
  | power3In
deriving DecidableEq, Repr

/-- The `vars` object of a `tl.to(targets, vars, position)` call. -/
structure TweenVars where
  opacity : ℚ
  y : ℚ
  blur : ℚ
  duration : ℚ
  ease : Ease
  stagger : Option ℚ
deriving DecidableEq, Repr

/-- Calls made to the tweening library and to the console, in the order made. -/
inductive Effect where
  | set (target : DomNode)
  | kill (tl : TimelineId)
  | timeline (tl : TimelineId)
  | to (tl : TimelineId) (targets : List (Option DomNode)) (vars : TweenVars)
      (position : Option ℚ)
  | logRevealed (percent : ℚ)
  | logHidden (percent : ℚ)
deriving DecidableEq, Repr

/-- Everything the UI animation module reads or writes. -/
structure World where
  animationState : AnimationState
  /-- What `document.querySelector` finds for the three section selectors. -/
  document : Elements
  /-- Timelines created and neither killed nor completed. -/
  live : List TimelineId
  /-- The handle the next `gsap.timeline` call returns. -/
  nextTimeline : TimelineId
  /-- Calls made so far, oldest first. -/
  log : List Effect
deriving DecidableEq, Repr

/-- The initial value of `animationState` (lines 8-15). -/
def initialAnimationState : AnimationState :=
  { isVisible := false
    revealThreshold := 7 / 10
    hideThreshold := 69 / 100
    elements := none
    currentTimeline := none
    isAnimating := false }

/-- The world when the module is loaded, for a given page. -/
def initialWorld (doc : Elements) : World :=
  { animationState := initialAnimationState
    document := doc
    live := []
    nextTimeline := 0
    log := [] }

/-- Source `initializeElements`. -/
def initializeElements (w : World) : World :=
  { w with animationState := { w.animationState with elements := some w.document } }

/-- Source `setInitialState`: `gsap.set` on every cached element that exists,
in the order of `Object.values`. -/
def setInitialState (w : World) : World :=
  match w.animationState.elements with
  | none => w
  | some els =>
    { w with
      log := w.log ++ ([els.title, els.text, els.actions].filterMap id).map Effect.set }

/-- Source `killCurrentAnimation`. -/
def killCurrentAnimation (w : World) : World :=
  match w.animationState.currentTimeline with
  | some tl =>
    { w with
      live := w.live.filter (fun t => t ≠ tl)
      log := w.log ++ [Effect.kill tl]
      animationState :=
        { w.animationState with currentTimeline := none, isAnimating := false } }
  | none => w

/-- The `vars` of the reveal tween (lines 86-93). -/
def revealVars : TweenVars :=
  { opacity := 1, y := 0, blur := 0, duration := 2, ease := Ease.power3Out,
    stagger := some (1 / 5) }

/-- The `vars` of the tween hiding title and text (lines 126-133). -/
def hideTextVars : TweenVars :=
  { opacity := 0, y := 30, blur := 10, duration := 4 / 5, ease := Ease.power3In,
    stagger := some (1 / 10) }

/-- The `vars` of the tween hiding the button (lines 137-143). -/
def hideActionsVars : TweenVars :=
  { opacity := 0, y := 30, blur := 10, duration := 4 / 5, ease := Ease.power3In,
    stagger := none }

/-- Source `revealSection`. -/
def revealSection (w : World) : World :=
  match w.animationState.elements with
  | none => w
  | some els =>
    if w.animationState.isVisible then w
    else
      let w1 := killCurrentAnimation w
      let tl := w1.nextTimeline
      { w1 with
        animationState :=
          { w1.animationState with
            isVisible := true, isAnimating := true, currentTimeline := some tl }
        live := w1.live ++ [tl]
        nextTimeline := tl + 1
        log := w1.log ++
          [Effect.timeline tl,
           Effect.to tl [els.title, els.text, els.actions] revealVars none,
           Effect.logRevealed (w1.animationState.revealThreshold * 100)] }

/-- Source `hideSection`. -/
def hideSection (w : World) : World :=
  match w.animationState.elements with
  | none => w
  | some els =>
    if !w.animationState.isVisible then w
    else
      let w1 := killCurrentAnimation w
      let tl := w1.nextTimeline
      { w1 with
        animationState :=
          { w1.animationState with
            isVisible := false, isAnimating := true, currentTimeline := some tl }
        live := w1.live ++ [tl]
        nextTimeline := tl + 1
        log := w1.log ++
          [Effect.timeline tl,
           Effect.to tl [els.title, els.text] hideTextVars none,
           Effect.to tl [els.actions] hideActionsVars (some (3 / 10)),
           Effect.logHidden (w1.animationState.hideThreshold * 100)] }

/-- Source `handleScrollVisibility`. -/
def handleScrollVisibility (scrollProgress : ℚ) (w : World) : World :=
  let shouldReveal :=
    decide (scrollProgress ≥ w.animationState.revealThreshold) &&
      !w.animationState.isVisible
  let shouldHide :=
    decide (scrollProgress < w.animationState.hideThreshold) &&
      w.animationState.isVisible
  if shouldReveal then revealSection w
  else if shouldHide then hideSection w
  else w

/-- Source `onScroll`. -/
def onScroll (scrollProgress : ℚ) (w : World) : World :=
  handleScrollVisibility scrollProgress w

/-- Source `reset`. -/
def reset (w : World) : World :=
  let w1 := killCurrentAnimation w
  setInitialState
    { w1 with animationState := { w1.animationState with isVisible := false } }

/-- Source `setRevealThreshold`. -/
def setRevealThreshold (threshold : ℚ) (s : AnimationState) : AnimationState :=
  { s with revealThreshold := max 0 (min 1 threshold) }

/-- Source `setHideThreshold`. -/
def setHideThreshold (threshold : ℚ) (s : AnimationState) : AnimationState :=
  { s with hideThreshold := max 0 (min 1 threshold) }

/-- Source `setThresholds`. -/
def setThresholds (revealThreshold hideThreshold : ℚ) (s : AnimationState) :
    AnimationState :=
  setHideThreshold hideThreshold (setRevealThreshold revealThreshold s)

/-- Source `init`. -/
def init (w : World) : World :=
  setInitialState (initializeElements w)

/-- The `onComplete` callback shared by both timelines (lines 70-73 and
116-119), run by the library when a live timeline reaches its end; a timeline
that was killed or has already completed never calls it. -/
def timelineComplete (tl : TimelineId) (w : World) : World :=
  if tl ∈ w.live then
    { w with
      live := w.live.filter (fun t => t ≠ tl)
      animationState :=
        { w.animationState with isAnimating := false, currentTimeline := none } }
  else w

/-! ### Observing transitions -/

/-- The transition a scroll tick fires. -/
inductive Transition where
  | None
  | Enter
  | Exit
deriving DecidableEq, Repr

/-- The calls made between world `w` and its successor `w2`. -/
def emitted (w w2 : World) : List Effect :=
  w2.log.drop w.log.length

/-- Is this the console line printed at the end of `revealSection`? -/
def Effect.isRevealLog : Effect → Bool
  | Effect.logRevealed _ => true
  | _ => false

/-- Is this the console line printed at the end of `hideSection`? -/
def Effect.isHideLog : Effect → Bool
  | Effect.logHidden _ => true
  | _ => false

/-- Classify a run of calls: `Enter` when `revealSection` ran its body, `Exit`
when `hideSection` did, `None` when neither did. -/
def transitionOf (es : List Effect) : Transition :=
  if es.any Effect.isRevealLog then Transition.Enter
  else if es.any Effect.isHideLog then Transition.Exit
  else Transition.None

/-- The transition fired by one call `onScroll(p)` in world `w`. -/
def transitionFired (p : ℚ) (w : World) : Transition :=
  transitionOf (emitted w (onScroll p w))

/-- Feed a sequence of progress values to `onScroll`, one call each. -/
def feed : List ℚ → World → World
  | [], w => w
  | p :: ps, w => feed ps (onScroll p w)

/-- The transitions fired while feeding a sequence of progress values. -/
def transitions : List ℚ → World → List Transition
  | [], _ => []
  | p :: ps, w => transitionFired p w :: transitions ps (onScroll p w)

/-- One step of the UI animation module as the page drives it. -/
inductive Action where
  | scroll (p : ℚ)
  | reset
  | complete (tl : TimelineId)
deriving DecidableEq, Repr

/-- Run one step. -/
def step : Action → World → World
  | Action.scroll p, w => onScroll p w
  | Action.reset, w => reset w
  | Action.complete tl, w => timelineComplete tl w

/-- Run a sequence of steps, first to last. -/
def run : List Action → World → World
  | [], w => w
  | a :: as, w => run as (step a w)

/-- The worlds reachable from `init` by scroll ticks, resets and timeline
completions. -/
def Reachable (w : World) : Prop :=
  ∃ (doc : Elements) (acts : List Action), w = run acts (init (initialWorld doc))

/-- The bookkeeping invariant of the "current transition" slot: the live
timelines are exactly the one held in `currentTimeline` (none when it is
`null`), `isAnimating` says whether the slot is occupied, and the handles still
to be handed out are fresh. -/
def TimelineInv (w : World) : Prop :=
  w.live = w.animationState.currentTimeline.toList ∧
  (w.animationState.isAnimating = true ↔ w.animationState.currentTimeline ≠ none) ∧
  (∀ t ∈ w.live, t < w.nextTimeline)

/-! ## `animation.js` -/

/-- A loaded clip together with the action the mixer keeps for it:
`mixer.clipAction(clip)` returns the same action every time it is asked for
the same clip, so the action's `time` is stored next to the clip's
`duration`. -/
structure ClipAction where
  duration : ℚ
  time : ℚ
deriving DecidableEq, Repr

/-- The fields of `AnimationManager` that `updateAnimation` reads or writes.
`mixer` records whether `this.mixer` is set; `endFrame := none` is the `null`
("full animation") of the source. -/
structure AnimationManager where
  mixer : Bool
  animations : List ClipAction
  startFrame : ℚ
  endFrame : Option ℚ
deriving DecidableEq, Repr

/-- The manager as the constructor leaves it (lines 8-16). -/
def newAnimationManager : AnimationManager :=
  { mixer := false, animations := [], startFrame := 4, endFrame := none }

/-- Source `setFrameRange`. -/
def setFrameRange (start : ℚ) (endF : Option ℚ) (m : AnimationManager) :
    AnimationManager :=
  { m with startFrame := start, endFrame := endF }

/-- The `startTime` constant of `updateAnimation` (line 94). -/
def startTime (m : AnimationManager) : ℚ :=
  m.startFrame / 24

/-- The `endTime` constant of `updateAnimation` (line 95):
`this.endFrame ? this.endFrame / 24 : duration`.  The condition is JavaScript
truthiness, so both `null` and the number `0` select `duration`. -/
def endTime (m : AnimationManager) (duration : ℚ) : ℚ :=
  match m.endFrame with
  | none => duration
  | some e => if e ≠ 0 then e / 24 else duration

/-- The value assigned to `action.time` (line 98). -/
def mappedTime (m : AnimationManager) (scrollProgress duration : ℚ) : ℚ :=
  startTime m + scrollProgress * (endTime m duration - startTime m)

/-- Source `updateAnimation`.  `mixer.update(0)` re-poses the scene without
advancing any action's time, so it does not appear here. -/
def updateAnimation (scrollProgress : ℚ) (m : AnimationManager) : AnimationManager :=
  if !m.mixer || m.animations.length == 0 then m
  else
    { m with
      animations :=
        m.animations.map fun clip =>
          { clip with time := mappedTime m scrollProgress clip.duration } }

/-! ## `main.js` -/

/-- The application object: the animation manager and the UI animation
module. -/
structure App where
  animationManager : AnimationManager
  uiAnimationManager : World
deriving DecidableEq, Repr

/-- The `scrollProgress` constant of `updateScrollAnimation` (lines 91-92):
`Math.min(scroll / maxScroll, 1)` with
`maxScroll = document.body.scrollHeight - window.innerHeight`.  Division is
that of `ℚ`; it agrees with JavaScript whenever `maxScroll ≠ 0`. -/
def scrollProgress (scroll scrollHeight innerHeight : ℚ) : ℚ :=
  let maxScroll := scrollHeight - innerHeight
  min (scroll / maxScroll) 1

/-- Source `updateScrollAnimation`. -/
def updateScrollAnimation (scroll scrollHeight innerHeight : ℚ) (app : App) : App :=
  let p := scrollProgress scroll scrollHeight innerHeight
  { animationManager := updateAnimation p app.animationManager
    uiAnimationManager := onScroll p app.uiAnimationManager }

/-! ## Holding the progress fixed -/

/-- Call `onScroll(p)` with the same progress value `n` times in a row. -/
def hold (p : ℚ) : Nat → World → World
  | 0, w => w
  | n + 1, w => hold p n (onScroll p w)

/-- The visibility flag after `n` calls of `onScroll(p)`. -/
def visibleAfter (p : ℚ) (n : Nat) (w : World) : Bool :=
  (hold p n w).animationState.isVisible

/-! ## `threejs-scene.js` -/

/-- The materials `applyMaterialsToObjects` deals in: the entries of
`candyMaterials` it assigns, the `MeshPhongMaterial` its default branch builds
around a colour, and the material a mesh arrives with from the GLB file (whose
`color` may be missing). -/
inductive Material where
  | blue
  | orange
  | lightBlue
  | frostedGlass
  | shiny (color : Nat)
  | loaded (color : Option Nat)
deriving DecidableEq, Repr

/-- The `color` property of a material, as a hex number. -/
def Material.color : Material → Option Nat
  | Material.blue => some 0x218fb0
  | Material.orange => some 0xff6d46
  | Material.lightBlue => some 0x61b4d1
  | Material.frostedGlass => some 0x9deffe
  | Material.shiny c => some c
  | Material.loaded c => c

/-- The fields of a scene-graph node that `applyMaterialsToObjects` reads or
writes. -/
structure Object3D where
  isMesh : Bool
  name : String
  material : Material
  castShadow : Bool
  receiveShadow : Bool
deriving DecidableEq, Repr

/-- The method `String.prototype.includes` on character lists. -/
def includesChars : List Char → List Char → Bool
  | [], pat => pat.isEmpty
  | c :: cs, pat => pat.isPrefixOf (c :: cs) || includesChars cs pat

/-- The lower-cased name `child.name.toLowerCase()`, as a character list.
Lower-casing is that of ASCII letters, which is what `toLowerCase` does on the
ASCII object names of a GLB file. -/
def lowerName (child : Object3D) : List Char :=
  child.name.toList.map Char.toLower

/-- The test `name.includes(pattern)` on the lower-cased name. -/
def nameIncludes (child : Object3D) (pattern : String) : Bool :=
  includesChars (lowerName child) pattern.toList

/-- The callback `applyMaterialsToObjects` passes to `scene.traverse`
(lines 157-214). -/
def applyMaterialsToChild (child : Object3D) : Object3D :=
  if child.isMesh then
    if nameIncludes child "box1" || nameIncludes child "box2" ||
        nameIncludes child "box3" || nameIncludes child "box4" ||
        nameIncludes child "box5" then
      { child with material := Material.blue, castShadow := true, receiveShadow := true }
    else if nameIncludes child "platform1" || nameIncludes child "platform2" then
      { child with material := Material.blue, castShadow := true, receiveShadow := true }
    else if nameIncludes child "ball" || nameIncludes child "cylinder" then
      { child with material := Material.orange, castShadow := true, receiveShadow := true }
    else if nameIncludes child "cup" then
      { child with
        material := Material.frostedGlass, castShadow := true, receiveShadow := true }
    else if nameIncludes child "wall" then
      { child with
        material := Material.lightBlue, castShadow := false, receiveShadow := true }
    else
      { child with
        material := Material.shiny (child.material.color.getD 0xcccccc)
        castShadow := true, receiveShadow := true }
  else child

/-- Source `applyMaterialsToObjects`; the scene is the list of its nodes in the
order `traverse` visits them. -/
def applyMaterialsToObjects (scene : List Object3D) : List Object3D :=
  scene.map applyMaterialsToChild

/-- The camera fields `updateCameraForAspectRatio` reads or writes.  Numbers
are taken from an ordered field `K`. -/
structure Camera (K : Type) where
  aspect : K
  fov : K
  originalFov : Option K

/-- The `baseFov` constant of `updateCameraForAspectRatio` (line 130):
`this.camera.originalFov || 75`; a missing or zero `originalFov` selects 75. -/
def baseFov {K : Type} [LinearOrderedField K] (camera : Camera K) : K :=
  match camera.originalFov with
  | some f => if f ≠ 0 then f else 75
  | none => 75

/-- The value first assigned to `this.camera.fov` (lines 131-144), in degrees,
before it is clamped.  `Math.tan`, `Math.atan` and `Math.PI` are parameters. -/
def targetVerticalFov {K : Type} [LinearOrderedField K] (tan atan : K → K) (pi : K)
    (aspect : K) (camera : Camera K) : K :=
  let baseAspect : K := 16 / 9
  let baseFovRad := baseFov camera * pi / 180
  let baseHorizontalFov := 2 * atan (tan (baseFovRad / 2) * baseAspect)
  let targetVerticalFovRad := 2 * atan (tan (baseHorizontalFov / 2) / aspect)
  targetVerticalFovRad * 180 / pi

/-- Source `updateCameraForAspectRatio`, for a viewport of the given size. -/
def updateCameraForAspectRatio {K : Type} [LinearOrderedField K] (tan atan : K → K)
    (pi : K) (width height : K) (camera : Camera K) : Camera K :=
  let aspect := width / height
  let fov := targetVerticalFov tan atan pi aspect camera
  let fov := min fov 150
  let fov := max fov 20
  { camera with aspect := aspect, fov := fov }

/-! ### Basic facts about the transition functions -/

theorem emitted_self (w : World) : emitted w w = [] := by
  simp [emitted]

theorem killCurrentAnimation_log (w : World) :
    (killCurrentAnimation w).log =
      w.log ++ (w.animationState.currentTimeline.toList.map Effect.kill) := by
  unfold killCurrentAnimation
  cases h : w.animationState.currentTimeline <;> simp

theorem killCurrentAnimation_live (w : World) :
    (killCurrentAnimation w).live =
      w.live.filter (fun t => some t ≠ w.animationState.currentTimeline) := by
  unfold killCurrentAnimation
  cases h : w.animationState.currentTimeline <;> simp

theorem revealSection_log (w : World) (els : Elements)
    (hel : w.animationState.elements = some els)
    (hv : w.animationState.isVisible = false) :
    (revealSection w).log =
      w.log ++ (w.animationState.currentTimeline.toList.map Effect.kill ++
        [Effect.timeline w.nextTimeline,
         Effect.to w.nextTimeline [els.title, els.text, els.actions] revealVars none,
         Effect.logRevealed (w.animationState.revealThreshold * 100)]) := by
  unfold revealSection
  simp only [hel, hv, killCurrentAnimation_log]
  unfold killCurrentAnimation
  cases h : w.animationState.currentTimeline <;> simp

theorem hideSection_log (w : World) (els : Elements)
    (hel : w.animationState.elements = some els)
    (hv : w.animationState.isVisible = true) :
    (hideSection w).log =
      w.log ++ (w.animationState.currentTimeline.toList.map Effect.kill ++
        [Effect.timeline w.nextTimeline,
         Effect.to w.nextTimeline [els.title, els.text] hideTextVars none,
         Effect.to w.nextTimeline [els.actions] hideActionsVars (some (3 / 10)),
         Effect.logHidden (w.animationState.hideThreshold * 100)]) := by
  unfold hideSection
  simp only [hel, hv, killCurrentAnimation_log]
  unfold killCurrentAnimation
  cases h : w.animationState.currentTimeline <;> simp

theorem emitted_append (w w2 : World) (es : List Effect) (h : w2.log = w.log ++ es) :
    emitted w w2 = es := by
  simp [emitted, h]

theorem transitionFired_reveal (w : World) (els : Elements)
    (hel : w.animationState.elements = some els)
    (hv : w.animationState.isVisible = false) :
    transitionOf (emitted w (revealSection w)) = Transition.Enter := by
  rw [emitted_append w _ _ (revealSection_log w els hel hv)]
  simp [transitionOf, Effect.isRevealLog]

theorem transitionFired_hide (w : World) (els : Elements)
    (hel : w.animationState.elements = some els)
    (hv : w.animationState.isVisible = true) :
    transitionOf (emitted w (hideSection w)) = Transition.Exit := by
  rw [emitted_append w _ _ (hideSection_log w els hel hv)]
  have hk : ∀ l : List TimelineId,
      (l.map Effect.kill).any Effect.isRevealLog = false := by
    intro l; induction l <;> simp_all [Effect.isRevealLog]
  simp [transitionOf, Effect.isRevealLog, Effect.isHideLog, hk]

theorem revealSection_isVisible (w : World) (els : Elements)
    (hel : w.animationState.elements = some els) :
    (revealSection w).animationState.isVisible = true := by
  unfold revealSection
  cases hv : w.animationState.isVisible <;> simp [hel, hv]

theorem hideSection_isVisible (w : World) (els : Elements)
    (hel : w.animationState.elements = some els) :
    (hideSection w).animationState.isVisible = false := by
  unfold hideSection
  cases hv : w.animationState.isVisible <;> simp [hel, hv]

/-- What one scroll tick does, by cases on the state and the two comparisons. -/
theorem onScroll_cases (p : ℚ) (w : World) :
    (w.animationState.isVisible = false ∧ w.animationState.revealThreshold ≤ p ∧
        onScroll p w = revealSection w) ∨
    (w.animationState.isVisible = true ∧ p < w.animationState.hideThreshold ∧
        onScroll p w = hideSection w) ∨
    (¬ (w.animationState.isVisible = false ∧ w.animationState.revealThreshold ≤ p) ∧
      ¬ (w.animationState.isVisible = true ∧ p < w.animationState.hideThreshold) ∧
        onScroll p w = w) := by
  unfold onScroll handleScrollVisibility
  cases hv : w.animationState.isVisible <;>
    by_cases h1 : w.animationState.revealThreshold ≤ p <;>
    by_cases h2 : p < w.animationState.hideThreshold <;>
    simp [h1, h2]

/-- C1: after `init` (the element cache is set), one call `onScroll(p)` fires
Enter exactly when the state was Hidden and `p >= revealThreshold`, and then
leaves the state Visible; fires Exit exactly when the state was Visible and
`p < hideThreshold`, and then leaves the state Hidden; and otherwise fires
nothing and changes nothing.  In particular `p = revealThreshold` in Hidden
fires Enter and `p = hideThreshold` in Visible does not fire Exit. -/
theorem onScroll_transition_iff (p : ℚ) (w : World)
    (hinit : w.animationState.elements ≠ none) :
    (transitionFired p w = Transition.Enter ↔
      (w.animationState.isVisible = false ∧ w.animationState.revealThreshold ≤ p)) ∧
    (transitionFired p w = Transition.Enter →
      (onScroll p w).animationState.isVisible = true) ∧
    (transitionFired p w = Transition.Exit ↔
      (w.animationState.isVisible = true ∧ p < w.animationState.hideThreshold)) ∧
    (transitionFired p w = Transition.Exit →
      (onScroll p w).animationState.isVisible = false) ∧
    (¬ (w.animationState.isVisible = false ∧ w.animationState.revealThreshold ≤ p) →
      ¬ (w.animationState.isVisible = true ∧ p < w.animationState.hideThreshold) →
      transitionFired p w = Transition.None ∧ onScroll p w = w) ∧
    (w.animationState.isVisible = false → p = w.animationState.revealThreshold →
      transitionFired p w = Transition.Enter) ∧
    (w.animationState.isVisible = true → p = w.animationState.hideThreshold →
      transitionFired p w ≠ Transition.Exit) := by
  obtain ⟨els, hel⟩ := Option.ne_none_iff_exists'.mp hinit
  rcases onScroll_cases p w with ⟨hv, hp, he⟩ | ⟨hv, hp, he⟩ | ⟨hn1, hn2, he⟩
  · have hf : transitionFired p w = Transition.Enter := by
      unfold transitionFired; rw [he]; exact transitionFired_reveal w els hel hv
    have hvis := revealSection_isVisible w els hel
    rw [← he] at hvis
    simp [hf, hv, hp, hvis]
  · have hf : transitionFired p w = Transition.Exit := by
      unfold transitionFired; rw [he]; exact transitionFired_hide w els hel hv
    have hvis := hideSection_isVisible w els hel
    rw [← he] at hvis
    simp [hf, hv, hp, hvis]
    intro h; exact absurd hp (by rw [h]; exact lt_irrefl _)
  · have hf : transitionFired p w = Transition.None := by
      unfold transitionFired; rw [he, emitted_self]; rfl
    refine ⟨?_, ?_, ?_, ?_, ?_, ?_, ?_⟩
    · simp [hf]; intro h; simpa [h] using hn1
    · simp [hf]
    · simp [hf]; intro h; simpa [h] using hn2
    · simp [hf]
    · intro _ _; exact ⟨hf, he⟩
    · intro hv hp; exact absurd ⟨hv, hp.ge⟩ hn1
    · simp [hf]

/-- Witness for C1: on the freshly initialised page, scrolling to exactly the
reveal threshold fires Enter. -/
theorem onScroll_transition_iff_witness :
    (init (initialWorld ⟨some 0, some 1, some 2⟩)).animationState.elements ≠ none ∧
    transitionFired (7 / 10) (init (initialWorld ⟨some 0, some 1, some 2⟩)) =
      Transition.Enter :=
  ⟨by decide,
   (onScroll_transition_iff (7 / 10) (init (initialWorld ⟨some 0, some 1, some 2⟩))
      (by decide)).2.2.2.2.2.1 rfl rfl⟩

/-! ### The time mapper -/

theorem updateAnimation_eq (p : ℚ) (m : AnimationManager) (hm : m.mixer = true) :
    (updateAnimation p m).animations =
      m.animations.map fun clip => { clip with time := mappedTime m p clip.duration } := by
  unfold updateAnimation
  cases hl : m.animations with
  | nil => simp [hm, hl]
  | cons c cs => simp [hm, hl]

theorem affine_eq_iff (s p d1 d2 : ℚ) :
    s + p * (d1 - s) = s + p * (d2 - s) ↔ p = 0 ∨ d1 = d2 := by
  constructor
  · intro h
    by_cases hp : p = 0
    · exact Or.inl hp
    · right
      have h2 : p * (d1 - s) = p * (d2 - s) := by linarith
      have h3 := mul_left_cancel₀ hp h2
      linarith
  · rintro (hp | hd)
    · simp [hp]
    · rw [hd]

theorem endTime_of_not_set (m : AnimationManager)
    (h : ¬ ∃ e, m.endFrame = some e ∧ e ≠ 0) (d : ℚ) : endTime m d = d := by
  unfold endTime
  cases he : m.endFrame with
  | none => rfl
  | some e =>
    by_cases h0 : e = 0
    · simp [h0]
    · exact absurd ⟨e, he, h0⟩ h

/-- C2: with `startFrame = 0`, `endFrame = 0` (a set end frame equal to the
start frame), a clip of duration 10 and progress 1/2, `updateAnimation` sets
the clip's time to 5: the end time it uses is the clip duration, whereas
`endFrame / 24 = 0` would give time 0. -/
theorem updateAnimation_endFrame_zero :
    (updateAnimation (1 / 2)
        { mixer := true, animations := [{ duration := 10, time := 0 }],
          startFrame := 0, endFrame := some 0 }).animations =
      [{ duration := 10, time := 5 }] ∧
    ((0 : ℚ) / 24 + 1 / 2 * ((0 : ℚ) / 24 - (0 : ℚ) / 24) = 0) := by
  constructor
  · rw [updateAnimation_eq _ _ rfl]
    simp [mappedTime, startTime, endTime]
    norm_num
  · norm_num

/-- C3 fails as stated: with the default frame window (`startFrame = 4`,
`endFrame` unset), clips of durations 10 and 20 and progress 1/2, the two
actions get the different times 61/12 and 121/12. -/
theorem updateAnimation_times_differ :
    (updateAnimation (1 / 2)
        { mixer := true,
          animations := [{ duration := 10, time := 0 }, { duration := 20, time := 0 }],
          startFrame := 4, endFrame := none }).animations =
      [{ duration := 10, time := 61 / 12 }, { duration := 20, time := 121 / 12 }] ∧
    (61 / 12 : ℚ) ≠ 121 / 12 := by
  constructor
  · rw [updateAnimation_eq _ _ rfl]
    simp [mappedTime, startTime, endTime]
    constructor <;> norm_num
  · norm_num

/-- C3, amended: `updateAnimation` gives each loaded clip the time
`startTime + p * (endTime - startTime)`.  When `endFrame` is set to a non-zero
frame, `endTime = endFrame / 24` for every clip, so all actions share one
time.  When `endFrame` is unset, `endTime` is the clip's own duration, so two
clips get the same time exactly when `p = 0` or their durations are equal. -/
theorem updateAnimation_same_time_iff (p : ℚ) (m : AnimationManager)
    (hm : m.mixer = true) (hne : m.animations ≠ []) :
    (∀ e : ℚ, m.endFrame = some e → e ≠ 0 →
      (updateAnimation p m).animations =
        (m.animations.map fun clip =>
          { clip with
            time := m.startFrame / 24 + p * (e / 24 - m.startFrame / 24) }) ∧
      ∀ c1 ∈ (updateAnimation p m).animations,
        ∀ c2 ∈ (updateAnimation p m).animations, c1.time = c2.time) ∧
    (m.endFrame = none →
      (updateAnimation p m).animations =
        (m.animations.map fun clip =>
          { clip with
            time := m.startFrame / 24 + p * (clip.duration - m.startFrame / 24) }) ∧
      ∀ d1 d2 : ℚ, mappedTime m p d1 = mappedTime m p d2 ↔ (p = 0 ∨ d1 = d2)) := by
  have _ := hne
  constructor
  · intro e he h0
    have hmt : ∀ d, mappedTime m p d =
        m.startFrame / 24 + p * (e / 24 - m.startFrame / 24) := by
      intro d; simp [mappedTime, startTime, endTime, he, h0]
    have heq := updateAnimation_eq p m hm
    simp only [hmt] at heq
    refine ⟨heq, ?_⟩
    intro c1 hc1 c2 hc2
    rw [heq] at hc1 hc2
    obtain ⟨a1, _, rfl⟩ := List.mem_map.mp hc1
    obtain ⟨a2, _, rfl⟩ := List.mem_map.mp hc2
    rfl
  · intro hn
    have hex : ¬ ∃ e, m.endFrame = some e ∧ e ≠ 0 := by
      rintro ⟨e, he, _⟩
      rw [hn] at he
      exact absurd he (by simp)
    have hend : ∀ d, endTime m d = d := endTime_of_not_set m hex
    have hmt : ∀ d, mappedTime m p d =
        m.startFrame / 24 + p * (d - m.startFrame / 24) := by
      intro d; simp [mappedTime, startTime, hend]
    have heq := updateAnimation_eq p m hm
    simp only [hmt] at heq
    refine ⟨heq, ?_⟩
    intro d1 d2
    rw [hmt, hmt]
    exact affine_eq_iff (m.startFrame / 24) p d1 d2

/-- Witness for the amended C3: with `startFrame = 4` and `endFrame = 48`,
clips of durations 10 and 20 both get the time 13/12 at progress 1/2. -/
theorem updateAnimation_same_time_iff_witness :
    (updateAnimation (1 / 2)
        { mixer := true,
          animations := [{ duration := 10, time := 0 }, { duration := 20, time := 0 }],
          startFrame := 4, endFrame := some 48 }).animations =
      [{ duration := 10, time := 4 / 24 + 1 / 2 * (48 / 24 - 4 / 24) },
       { duration := 20, time := 4 / 24 + 1 / 2 * (48 / 24 - 4 / 24) }] :=
  ((updateAnimation_same_time_iff (1 / 2)
      { mixer := true,
        animations := [{ duration := 10, time := 0 }, { duration := 20, time := 0 }],
        startFrame := 4, endFrame := some 48 } rfl (by simp)).1 48 rfl
    (by norm_num)).1

/-! ### The visibility state machine over sequences -/

/-- A tick that neither reveals nor hides leaves the world as it is and fires
nothing. -/
theorem transitionFired_of_onScroll_eq (p : ℚ) (w : World) (h : onScroll p w = w) :
    transitionFired p w = Transition.None := by
  unfold transitionFired
  rw [h, emitted_self]
  rfl

/-- In the Visible state a progress value at or above `hideThreshold` changes
nothing. -/
theorem onScroll_visible_of_ge (p : ℚ) (w : World)
    (hv : w.animationState.isVisible = true)
    (hp : w.animationState.hideThreshold ≤ p) : onScroll p w = w := by
  rcases onScroll_cases p w with ⟨hv2, _, _⟩ | ⟨_, hp2, _⟩ | ⟨_, _, he⟩
  · rw [hv] at hv2; exact absurd hv2 (by decide)
  · exact absurd hp (not_le.mpr hp2)
  · exact he

/-- In the Hidden state a progress value below `revealThreshold` changes
nothing. -/
theorem onScroll_hidden_of_lt (p : ℚ) (w : World)
    (hv : w.animationState.isVisible = false)
    (hp : p < w.animationState.revealThreshold) : onScroll p w = w := by
  rcases onScroll_cases p w with ⟨_, hp2, _⟩ | ⟨hv2, _, _⟩ | ⟨_, _, he⟩
  · exact absurd hp (not_lt.mpr hp2)
  · rw [hv] at hv2; exact absurd hv2 (by decide)
  · exact he

/-- In the Hidden state, once the element cache is set, a progress value at or
above `revealThreshold` runs `revealSection` and fires Enter. -/
theorem onScroll_enter (p : ℚ) (w : World) (els : Elements)
    (hel : w.animationState.elements = some els)
    (hv : w.animationState.isVisible = false)
    (hp : w.animationState.revealThreshold ≤ p) :
    onScroll p w = revealSection w ∧ transitionFired p w = Transition.Enter := by
  have he : onScroll p w = revealSection w := by
    rcases onScroll_cases p w with ⟨_, _, he⟩ | ⟨hv2, _, _⟩ | ⟨hn, _, _⟩
    · exact he
    · rw [hv] at hv2; exact absurd hv2 (by decide)
    · exact absurd ⟨hv, hp⟩ hn
  refine ⟨he, ?_⟩
  unfold transitionFired
  rw [he]
  exact transitionFired_reveal w els hel hv

/-- In the Visible state, once the element cache is set, a progress value
below `hideThreshold` runs `hideSection` and fires Exit. -/
theorem onScroll_exit (p : ℚ) (w : World) (els : Elements)
    (hel : w.animationState.elements = some els)
    (hv : w.animationState.isVisible = true)
    (hp : p < w.animationState.hideThreshold) :
    onScroll p w = hideSection w ∧ transitionFired p w = Transition.Exit := by
  have he : onScroll p w = hideSection w := by
    rcases onScroll_cases p w with ⟨hv2, _, _⟩ | ⟨_, _, he⟩ | ⟨_, hn, _⟩
    · rw [hv] at hv2; exact absurd hv2 (by decide)
    · exact he
    · exact absurd ⟨hv, hp⟩ hn
  refine ⟨he, ?_⟩
  unfold transitionFired
  rw [he]
  exact transitionFired_hide w els hel hv

/-- `killCurrentAnimation` touches neither the element cache nor the
thresholds nor the visibility flag. -/
theorem killCurrentAnimation_frame (w : World) :
    (killCurrentAnimation w).animationState.elements = w.animationState.elements ∧
    (killCurrentAnimation w).animationState.revealThreshold =
      w.animationState.revealThreshold ∧
    (killCurrentAnimation w).animationState.hideThreshold =
      w.animationState.hideThreshold ∧
    (killCurrentAnimation w).animationState.isVisible = w.animationState.isVisible := by
  unfold killCurrentAnimation
  cases w.animationState.currentTimeline <;> simp

/-- `revealSection` touches neither the element cache nor the thresholds. -/
theorem revealSection_frame (w : World) :
    (revealSection w).animationState.elements = w.animationState.elements ∧
    (revealSection w).animationState.revealThreshold =
      w.animationState.revealThreshold ∧
    (revealSection w).animationState.hideThreshold =
      w.animationState.hideThreshold := by
  have hk := killCurrentAnimation_frame w
  unfold revealSection
  cases hel : w.animationState.elements with
  | none => simp [hel]
  | some els =>
    cases hv : w.animationState.isVisible
    · simp only [Bool.false_eq_true, ite_false]
      exact ⟨hk.1.trans hel, hk.2.1, hk.2.2.1⟩
    · simp [hel]

/-- `hideSection` touches neither the element cache nor the thresholds. -/
theorem hideSection_frame (w : World) :
    (hideSection w).animationState.elements = w.animationState.elements ∧
    (hideSection w).animationState.revealThreshold =
      w.animationState.revealThreshold ∧
    (hideSection w).animationState.hideThreshold =
      w.animationState.hideThreshold := by
  have hk := killCurrentAnimation_frame w
  unfold hideSection
  cases hel : w.animationState.elements with
  | none => simp [hel]
  | some els =>
    cases hv : w.animationState.isVisible
    · simp [hel]
    · simp only [Bool.not_true, Bool.false_eq_true, ite_false]
      exact ⟨hk.1.trans hel, hk.2.1, hk.2.2.1⟩

/-- C4: with `hideThreshold < revealThreshold`, feeding any finite sequence of
progress values that are all `>= revealThreshold` to `onScroll` from the
Visible state fires neither Enter nor Exit at any step and leaves the state
Visible (indeed leaves the whole world untouched). -/
theorem visible_level_fires_nothing (w : World) (ps : List ℚ)
    (hlt : w.animationState.hideThreshold < w.animationState.revealThreshold)
    (hv : w.animationState.isVisible = true)
    (hps : ∀ p ∈ ps, w.animationState.revealThreshold ≤ p) :
    transitions ps w = List.replicate ps.length Transition.None ∧
    feed ps w = w ∧
    (feed ps w).animationState.isVisible = true := by
  induction ps with
  | nil => exact ⟨rfl, rfl, hv⟩
  | cons p ps ih =>
    have hp : w.animationState.revealThreshold ≤ p := hps p (List.mem_cons_self _ _)
    have he : onScroll p w = w := onScroll_visible_of_ge p w hv (le_trans hlt.le hp)
    have ih2 := ih (fun q hq => hps q (List.mem_cons_of_mem _ hq))
    refine ⟨?_, ?_, ?_⟩
    · simp only [transitions, he, transitionFired_of_onScroll_eq p w he, ih2.1,
        List.length_cons, List.replicate_succ]
    · simp only [feed, he, ih2.2.1]
    · simp only [feed, he, ih2.2.2]

/-- Witness for C4: after revealing on the default page, the ticks 0.7, 0.9
and 1 fire nothing. -/
theorem visible_level_fires_nothing_witness :
    transitions [7 / 10, 9 / 10, 1]
        (onScroll (4 / 5) (init (initialWorld ⟨some 0, some 1, some 2⟩))) =
      [Transition.None, Transition.None, Transition.None] :=
  (visible_level_fires_nothing
    (onScroll (4 / 5) (init (initialWorld ⟨some 0, some 1, some 2⟩)))
    [7 / 10, 9 / 10, 1]
    (by norm_num [onScroll, handleScrollVisibility, revealSection, killCurrentAnimation,
          init, setInitialState, initializeElements, initialWorld, initialAnimationState])
    (by norm_num [onScroll, handleScrollVisibility, revealSection, killCurrentAnimation,
          init, setInitialState, initializeElements, initialWorld, initialAnimationState])
    (by norm_num [onScroll, handleScrollVisibility, revealSection, killCurrentAnimation,
          init, setInitialState, initializeElements, initialWorld,
          initialAnimationState])).1

/-! ### End points and monotonicity of the mapped time -/

/-- C5: for a frame window whose `endFrame` is unset or a positive frame number
and any clip duration, `updateAnimation` at progress 0 sets every clip's time
to `startFrame / 24`, and at progress 1 sets it to `endFrame / 24`, or to the
clip's duration when `endFrame` is unset. -/
theorem updateAnimation_endpoints (m : AnimationManager) (hm : m.mixer = true)
    (hend : m.endFrame = none ∨ ∃ e, m.endFrame = some e ∧ 0 < e) :
    (updateAnimation 0 m).animations =
      (m.animations.map fun clip => { clip with time := m.startFrame / 24 }) ∧
    (updateAnimation 1 m).animations =
      (m.animations.map fun clip =>
        { clip with
          time := match m.endFrame with
            | some e => e / 24
            | none => clip.duration }) ∧
    (∀ d : ℚ, 0 < d → mappedTime m 0 d = m.startFrame / 24 ∧
      mappedTime m 1 d = match m.endFrame with
        | some e => e / 24
        | none => d) := by
  rw [updateAnimation_eq 0 m hm, updateAnimation_eq 1 m hm]
  have h0 : ∀ d, mappedTime m 0 d = m.startFrame / 24 := by
    intro d; simp [mappedTime, startTime]
  have h1 : ∀ d, mappedTime m 1 d =
      match m.endFrame with
        | some e => e / 24
        | none => d := by
    intro d
    rcases hend with hn | ⟨e, he, hpos⟩
    · simp [mappedTime, endTime, hn]
    · simp [mappedTime, endTime, he, hpos.ne']
  refine ⟨?_, ?_, fun d _ => ⟨h0 d, h1 d⟩⟩
  · simp only [h0]
  · simp only [h1]

/-- Witness for C5: the default window (`startFrame = 4`, `endFrame` unset) on
a clip of duration 10. -/
theorem updateAnimation_endpoints_witness :
    mappedTime { mixer := true, animations := [{ duration := 10, time := 0 }],
                 startFrame := 4, endFrame := none } 0 10 = 4 / 24 ∧
    mappedTime { mixer := true, animations := [{ duration := 10, time := 0 }],
                 startFrame := 4, endFrame := none } 1 10 = 10 :=
  (updateAnimation_endpoints
    { mixer := true, animations := [{ duration := 10, time := 0 }],
      startFrame := 4, endFrame := none } rfl (Or.inl rfl)).2.2 10 (by norm_num)

/-- C6: with `startTime` and `endTime` as the mapper computes them for a clip,
if `endTime > startTime` the mapped time is monotone in the progress on
`[0,1]`, strictly so for strictly increasing progress; and if
`endTime = startTime` the mapped time is `startTime` for every progress. -/
theorem mappedTime_monotone (m : AnimationManager) (d : ℚ) :
    (startTime m < endTime m d →
      ∀ p q : ℚ, 0 ≤ p → p ≤ q → q ≤ 1 →
        mappedTime m p d ≤ mappedTime m q d ∧
        (p < q → mappedTime m p d < mappedTime m q d)) ∧
    (endTime m d = startTime m → ∀ p : ℚ, mappedTime m p d = startTime m) := by
  constructor
  · intro hlt p q _ hpq _
    have hpos : 0 < endTime m d - startTime m := sub_pos.mpr hlt
    unfold mappedTime
    constructor
    · have := mul_le_mul_of_nonneg_right hpq hpos.le
      linarith
    · intro hs
      have := mul_lt_mul_of_pos_right hs hpos
      linarith
  · intro he p
    simp [mappedTime, he]

/-- Witness for C6: the default window on a clip of duration 10, between
progress 1/4 and 3/4; and the zero-length window from frame 48 to frame 48,
which maps progress 3/4 to the start time 2. -/
theorem mappedTime_monotone_witness :
    mappedTime { mixer := true, animations := [{ duration := 10, time := 0 }],
                 startFrame := 4, endFrame := none } (1 / 4) 10 <
    mappedTime { mixer := true, animations := [{ duration := 10, time := 0 }],
                 startFrame := 4, endFrame := none } (3 / 4) 10 ∧
    mappedTime { mixer := true, animations := [{ duration := 10, time := 0 }],
                 startFrame := 48, endFrame := some 48 } (3 / 4) 10 =
    startTime { mixer := true, animations := [{ duration := 10, time := 0 }],
                startFrame := 48, endFrame := some 48 } :=
  ⟨((mappedTime_monotone
      { mixer := true, animations := [{ duration := 10, time := 0 }],
        startFrame := 4, endFrame := none } 10).1
    (by norm_num [startTime, endTime]) (1 / 4) (3 / 4)
    (by norm_num) (by norm_num) (by norm_num)).2 (by norm_num),
   (mappedTime_monotone
      { mixer := true, animations := [{ duration := 10, time := 0 }],
        startFrame := 48, endFrame := some 48 } 10).2
    (by norm_num [startTime, endTime]) (3 / 4)⟩

/-! ### Threshold setters -/

/-- C7: `setRevealThreshold(t)` stores `max(0, min(1, t))` as
`revealThreshold`, a value in `[0,1]`, and leaves every other field, among them
`hideThreshold` and `isVisible`, unchanged; `setHideThreshold(t)` does the same
for `hideThreshold`.  Neither restores `hideThreshold < revealThreshold`: from
the default state, `setRevealThreshold(0.5)` leaves `hideThreshold = 0.69`
above `revealThreshold = 0.5`, and `setHideThreshold(0.9)` leaves
`hideThreshold = 0.9` above `revealThreshold = 0.7`. -/
theorem setThreshold_clamps :
    (∀ (t : ℚ) (s : AnimationState),
      (setRevealThreshold t s).revealThreshold = max 0 (min 1 t) ∧
      0 ≤ (setRevealThreshold t s).revealThreshold ∧
      (setRevealThreshold t s).revealThreshold ≤ 1 ∧
      setRevealThreshold t s = { s with revealThreshold := max 0 (min 1 t) } ∧
      (setRevealThreshold t s).hideThreshold = s.hideThreshold ∧
      (setRevealThreshold t s).isVisible = s.isVisible) ∧
    (∀ (t : ℚ) (s : AnimationState),
      (setHideThreshold t s).hideThreshold = max 0 (min 1 t) ∧
      0 ≤ (setHideThreshold t s).hideThreshold ∧
      (setHideThreshold t s).hideThreshold ≤ 1 ∧
      setHideThreshold t s = { s with hideThreshold := max 0 (min 1 t) } ∧
      (setHideThreshold t s).revealThreshold = s.revealThreshold ∧
      (setHideThreshold t s).isVisible = s.isVisible) ∧
    (initialAnimationState.hideThreshold < initialAnimationState.revealThreshold ∧
      ¬ ((setRevealThreshold (1 / 2) initialAnimationState).hideThreshold <
          (setRevealThreshold (1 / 2) initialAnimationState).revealThreshold) ∧
      ¬ ((setHideThreshold (9 / 10) initialAnimationState).hideThreshold <
          (setHideThreshold (9 / 10) initialAnimationState).revealThreshold)) := by
  refine ⟨?_, ?_, ?_⟩
  · intro t s
    refine ⟨rfl, le_max_left _ _, ?_, rfl, rfl, rfl⟩
    exact max_le (by norm_num) (min_le_left _ _)
  · intro t s
    refine ⟨rfl, le_max_left _ _, ?_, rfl, rfl, rfl⟩
    exact max_le (by norm_num) (min_le_left _ _)
  · refine ⟨?_, ?_, ?_⟩
    · norm_num [initialAnimationState]
    · norm_num [setRevealThreshold, initialAnimationState]
    · norm_num [setHideThreshold, initialAnimationState]

/-! ### The worked example of the specification -/

/-- C8: from the state left by `init` (Hidden, `revealThreshold = 0.7`,
`hideThreshold = 0.69`), on any page, the progress sequence
`[0.5, 0.71, 0.695, 0.68]` fires `[None, Enter, None, Exit]` in that order and
ends Hidden. -/
theorem worked_example (doc : Elements) :
    (init (initialWorld doc)).animationState.isVisible = false ∧
    (init (initialWorld doc)).animationState.revealThreshold = 7 / 10 ∧
    (init (initialWorld doc)).animationState.hideThreshold = 69 / 100 ∧
    transitions [1 / 2, 71 / 100, 139 / 200, 17 / 25] (init (initialWorld doc)) =
      [Transition.None, Transition.Enter, Transition.None, Transition.Exit] ∧
    (feed [1 / 2, 71 / 100, 139 / 200, 17 / 25]
      (init (initialWorld doc))).animationState.isVisible = false := by
  have hel : (init (initialWorld doc)).animationState.elements = some doc := rfl
  have hv0 : (init (initialWorld doc)).animationState.isVisible = false := rfl
  have hr0 : (init (initialWorld doc)).animationState.revealThreshold = 7 / 10 := rfl
  have hh0 : (init (initialWorld doc)).animationState.hideThreshold = 69 / 100 := rfl
  generalize init (initialWorld doc) = w0 at hel hv0 hr0 hh0 ⊢
  -- tick 1: 0.5 is below the reveal threshold
  have e1 : onScroll (1 / 2) w0 = w0 :=
    onScroll_hidden_of_lt _ w0 hv0 (by rw [hr0]; norm_num)
  -- tick 2: 0.71 reveals
  have e2 := onScroll_enter (71 / 100) w0 doc hel hv0 (by rw [hr0]; norm_num)
  have hel1 := (revealSection_frame w0).1.trans hel
  have hr1 := (revealSection_frame w0).2.1.trans hr0
  have hh1 := (revealSection_frame w0).2.2.trans hh0
  have hv1 := revealSection_isVisible w0 doc hel
  generalize revealSection w0 = w1 at e2 hel1 hr1 hh1 hv1
  -- tick 3: 0.695 is not below the hide threshold
  have e3 : onScroll (139 / 200) w1 = w1 :=
    onScroll_visible_of_ge _ w1 hv1 (by rw [hh1]; norm_num)
  -- tick 4: 0.68 hides
  have e4 := onScroll_exit (17 / 25) w1 doc hel1 hv1 (by rw [hh1]; norm_num)
  have hv2 := hideSection_isVisible w1 doc hel1
  refine ⟨hv0, hr0, hh0, ?_, ?_⟩
  · simp only [transitions, e1, e2.1, e2.2, e3, e4.2,
      transitionFired_of_onScroll_eq _ _ e1, transitionFired_of_onScroll_eq _ _ e3]
  · simp only [feed, e1, e2.1, e3, e4.1, hv2]

/-! ### Scroll progress -/

/-- C10 fails as stated: a scroll distance of -1 on a page with 1 unit of
scrollable distance gives the progress -1, below 0. -/
theorem scrollProgress_negative :
    scrollProgress (-1) 2 1 = -1 ∧ ¬ (0 ≤ scrollProgress (-1) 2 1) := by
  norm_num [scrollProgress]

/-- C10, amended: `updateScrollAnimation` passes the same progress value
`min (scroll / maxScroll) 1` to `updateAnimation` and to `onScroll`; for a
positive maximum scrollable distance this value is at most 1 for every scroll
distance, and it is at least 0 exactly when the scroll distance is at least
0. -/
theorem scrollProgress_bounds (scroll scrollHeight innerHeight : ℚ) (app : App)
    (hmax : 0 < scrollHeight - innerHeight) :
    updateScrollAnimation scroll scrollHeight innerHeight app =
      { animationManager :=
          updateAnimation (scrollProgress scroll scrollHeight innerHeight)
            app.animationManager
        uiAnimationManager :=
          onScroll (scrollProgress scroll scrollHeight innerHeight)
            app.uiAnimationManager } ∧
    scrollProgress scroll scrollHeight innerHeight ≤ 1 ∧
    (0 ≤ scrollProgress scroll scrollHeight innerHeight ↔ 0 ≤ scroll) ∧
    (0 ≤ scroll →
      0 ≤ scrollProgress scroll scrollHeight innerHeight ∧
      scrollProgress scroll scrollHeight innerHeight ≤ 1) := by
  have hiff : 0 ≤ scrollProgress scroll scrollHeight innerHeight ↔ 0 ≤ scroll := by
    unfold scrollProgress
    simp only [le_min_iff, zero_le_one, and_true]
    rw [le_div_iff₀ hmax, zero_mul]
  have hle : scrollProgress scroll scrollHeight innerHeight ≤ 1 := by
    unfold scrollProgress
    exact min_le_right _ _
  exact ⟨rfl, hle, hiff, fun h => ⟨hiff.mpr h, hle⟩⟩

/-- Witness for the amended C10: half-way down a page with 1000 units of
scrollable distance the progress is 1/2, inside `[0,1]`. -/
theorem scrollProgress_bounds_witness :
    0 ≤ scrollProgress 500 1800 800 ∧ scrollProgress 500 1800 800 ≤ 1 :=
  (scrollProgress_bounds 500 1800 800
    { animationManager := newAnimationManager
      uiAnimationManager := init (initialWorld ⟨some 0, some 1, some 2⟩) }
    (by norm_num)).2.2.2 (by norm_num)

/-! ### At most one live timeline -/

theorem filter_ne_toList (o : Option TimelineId) :
    o.toList.filter (fun t => some t ≠ o) = [] := by
  cases o <;> simp

/-- Under the invariant, `killCurrentAnimation` leaves no live timeline and an
empty, idle slot. -/
theorem killCurrentAnimation_clears (w : World) (hi : TimelineInv w) :
    (killCurrentAnimation w).live = [] ∧
    (killCurrentAnimation w).animationState.currentTimeline = none ∧
    (killCurrentAnimation w).animationState.isAnimating = false ∧
    (killCurrentAnimation w).nextTimeline = w.nextTimeline := by
  obtain ⟨hl, ha, _⟩ := hi
  refine ⟨?_, ?_, ?_, ?_⟩
  · rw [killCurrentAnimation_live, hl]
    exact filter_ne_toList _
  · unfold killCurrentAnimation
    cases hc : w.animationState.currentTimeline <;> simp [hc]
  · unfold killCurrentAnimation
    cases hc : w.animationState.currentTimeline with
    | none =>
      have : ¬ w.animationState.isAnimating = true := by
        rw [ha]; simp [hc]
      simpa using this
    | some tl => simp
  · unfold killCurrentAnimation
    cases hc : w.animationState.currentTimeline <;> simp

theorem killCurrentAnimation_inv (w : World) (hi : TimelineInv w) :
    TimelineInv (killCurrentAnimation w) := by
  obtain ⟨h1, h2, h3, _⟩ := killCurrentAnimation_clears w hi
  refine ⟨?_, ?_, ?_⟩
  · rw [h1, h2]; rfl
  · rw [h2, h3]; simp
  · rw [h1]; simp

/-- When `revealSection` passes its guard, the timeline it creates is the only
live one and is the one stored in the slot. -/
theorem revealSection_slot (w : World) (els : Elements) (hi : TimelineInv w)
    (hel : w.animationState.elements = some els)
    (hv : w.animationState.isVisible = false) :
    (revealSection w).live = [w.nextTimeline] ∧
    (revealSection w).animationState.currentTimeline = some w.nextTimeline ∧
    (revealSection w).animationState.isAnimating = true ∧
    (revealSection w).nextTimeline = w.nextTimeline + 1 := by
  obtain ⟨h1, _, _, h4⟩ := killCurrentAnimation_clears w hi
  unfold revealSection
  simp [hel, hv, h1, h4]

/-- When `hideSection` passes its guard, the timeline it creates is the only
live one and is the one stored in the slot. -/
theorem hideSection_slot (w : World) (els : Elements) (hi : TimelineInv w)
    (hel : w.animationState.elements = some els)
    (hv : w.animationState.isVisible = true) :
    (hideSection w).live = [w.nextTimeline] ∧
    (hideSection w).animationState.currentTimeline = some w.nextTimeline ∧
    (hideSection w).animationState.isAnimating = true ∧
    (hideSection w).nextTimeline = w.nextTimeline + 1 := by
  obtain ⟨h1, _, _, h4⟩ := killCurrentAnimation_clears w hi
  unfold hideSection
  simp [hel, hv, h1, h4]

theorem inv_of_slot (w : World) (n : TimelineId)
    (h1 : w.live = [n]) (h2 : w.animationState.currentTimeline = some n)
    (h3 : w.animationState.isAnimating = true) (h4 : w.nextTimeline = n + 1) :
    TimelineInv w := by
  refine ⟨?_, ?_, ?_⟩
  · rw [h1, h2]; rfl
  · rw [h2, h3]; simp
  · rw [h1, h4]; simp

theorem revealSection_inv (w : World) (hi : TimelineInv w) :
    TimelineInv (revealSection w) := by
  cases hel : w.animationState.elements with
  | none => unfold revealSection; simpa [hel] using hi
  | some els =>
    cases hv : w.animationState.isVisible
    · obtain ⟨h1, h2, h3, h4⟩ := revealSection_slot w els hi hel hv
      exact inv_of_slot _ _ h1 h2 h3 h4
    · unfold revealSection; simpa [hel, hv] using hi

theorem hideSection_inv (w : World) (hi : TimelineInv w) :
    TimelineInv (hideSection w) := by
  cases hel : w.animationState.elements with
  | none => unfold hideSection; simpa [hel] using hi
  | some els =>
    cases hv : w.animationState.isVisible
    · unfold hideSection; simpa [hel, hv] using hi
    · obtain ⟨h1, h2, h3, h4⟩ := hideSection_slot w els hi hel hv
      exact inv_of_slot _ _ h1 h2 h3 h4

theorem onScroll_inv (p : ℚ) (w : World) (hi : TimelineInv w) :
    TimelineInv (onScroll p w) := by
  rcases onScroll_cases p w with ⟨_, _, he⟩ | ⟨_, _, he⟩ | ⟨_, _, he⟩
  · rw [he]; exact revealSection_inv w hi
  · rw [he]; exact hideSection_inv w hi
  · rw [he]; exact hi

theorem setInitialState_inv (w : World) (hi : TimelineInv w) :
    TimelineInv (setInitialState w) := by
  unfold setInitialState
  cases hel : w.animationState.elements <;> simpa [TimelineInv] using hi

theorem reset_inv (w : World) (hi : TimelineInv w) : TimelineInv (reset w) := by
  unfold reset
  apply setInitialState_inv
  simpa [TimelineInv] using killCurrentAnimation_inv w hi

theorem timelineComplete_inv (tl : TimelineId) (w : World) (hi : TimelineInv w) :
    TimelineInv (timelineComplete tl w) := by
  unfold timelineComplete
  by_cases hm : tl ∈ w.live
  · obtain ⟨hl, _, _⟩ := hi
    simp only [hm, ite_true]
    cases hc : w.animationState.currentTimeline with
    | none => rw [hl, hc] at hm; simp at hm
    | some c =>
      rw [hl, hc] at hm
      have htl : tl = c := by simpa using hm
      simp [TimelineInv, hl, hc, htl]
  · simpa [hm] using hi

theorem step_inv (a : Action) (w : World) (hi : TimelineInv w) :
    TimelineInv (step a w) := by
  cases a with
  | scroll p => exact onScroll_inv p w hi
  | reset => exact reset_inv w hi
  | complete tl => exact timelineComplete_inv tl w hi

theorem run_inv (acts : List Action) (w : World) (hi : TimelineInv w) :
    TimelineInv (run acts w) := by
  induction acts generalizing w with
  | nil => exact hi
  | cons a as ih => exact ih (step a w) (step_inv a w hi)

theorem init_inv (doc : Elements) : TimelineInv (init (initialWorld doc)) := by
  simp [TimelineInv, init, setInitialState, initializeElements, initialWorld,
    initialAnimationState]

theorem reachable_inv (w : World) (hr : Reachable w) : TimelineInv w := by
  obtain ⟨doc, acts, rfl⟩ := hr
  exact run_inv acts _ (init_inv doc)

/-- C9: in every state reachable from `init` by `onScroll`, `reset` and
timeline-completion steps, at most one timeline is live, the live timelines are
exactly the one held in `currentTimeline`, and `isAnimating` is true exactly
when `currentTimeline` is non-null.  Moreover every scroll tick that fires
Enter or Exit first kills each previously live timeline and only then creates
its own, which afterwards is the only live timeline and the one held in
`currentTimeline`. -/
theorem at_most_one_live_timeline (w : World) (hr : Reachable w) :
    w.live.length ≤ 1 ∧
    w.live = w.animationState.currentTimeline.toList ∧
    (w.animationState.isAnimating = true ↔ w.animationState.currentTimeline ≠ none) ∧
    (∀ p : ℚ, transitionFired p w ≠ Transition.None →
      (∃ rest : List Effect,
        emitted w (onScroll p w) =
          w.live.map Effect.kill ++ Effect.timeline w.nextTimeline :: rest ∧
        ∀ t, Effect.kill t ∉ rest ∧ Effect.timeline t ∉ rest) ∧
      w.nextTimeline ∉ w.live ∧
      (onScroll p w).live = [w.nextTimeline] ∧
      (onScroll p w).animationState.currentTimeline = some w.nextTimeline ∧
      (onScroll p w).animationState.isAnimating = true) := by
  have hi := reachable_inv w hr
  obtain ⟨hl, ha, hf⟩ := hi
  have hfresh : w.nextTimeline ∉ w.live := fun hm => lt_irrefl _ (hf _ hm)
  refine ⟨?_, hl, ha, ?_⟩
  · rw [hl]; cases w.animationState.currentTimeline <;> simp
  · intro p hfire
    cases hel : w.animationState.elements with
    | none =>
      exfalso
      apply hfire
      apply transitionFired_of_onScroll_eq
      rcases onScroll_cases p w with ⟨_, _, he⟩ | ⟨_, _, he⟩ | ⟨_, _, he⟩
      · rw [he]; unfold revealSection; simp [hel]
      · rw [he]; unfold hideSection; simp [hel]
      · exact he
    | some els =>
      rcases onScroll_cases p w with ⟨hv, _, he⟩ | ⟨hv, _, he⟩ | ⟨_, _, he⟩
      · obtain ⟨h1, h2, h3, _⟩ := revealSection_slot w els ⟨hl, ha, hf⟩ hel hv
        rw [he]
        refine ⟨⟨[Effect.to w.nextTimeline [els.title, els.text, els.actions] revealVars none,
            Effect.logRevealed (w.animationState.revealThreshold * 100)], ?_, ?_⟩,
          hfresh, h1, h2, h3⟩
        · exact (emitted_append w _ _ (revealSection_log w els hel hv)).trans (by rw [hl])
        · intro t; simp
      · obtain ⟨h1, h2, h3, _⟩ := hideSection_slot w els ⟨hl, ha, hf⟩ hel hv
        rw [he]
        refine ⟨⟨[Effect.to w.nextTimeline [els.title, els.text] hideTextVars none,
            Effect.to w.nextTimeline [els.actions] hideActionsVars (some (3 / 10)),
            Effect.logHidden (w.animationState.hideThreshold * 100)], ?_, ?_⟩,
          hfresh, h1, h2, h3⟩
        · exact (emitted_append w _ _ (hideSection_log w els hel hv)).trans (by rw [hl])
        · intro t; simp
      · exact absurd (transitionFired_of_onScroll_eq p w he) hfire

/-- Witness for C9: reveal, then hide before the reveal timeline completes,
then let the stale reveal timeline and the hide timeline try to complete.
After the hide only timeline 1 is live, and timeline 0, killed by the hide,
never completes. -/
theorem at_most_one_live_timeline_witness :
    Reachable (run [Action.scroll (4 / 5), Action.scroll (1 / 2), Action.complete 0]
      (init (initialWorld ⟨some 0, some 1, some 2⟩))) ∧
    (run [Action.scroll (4 / 5), Action.scroll (1 / 2), Action.complete 0]
      (init (initialWorld ⟨some 0, some 1, some 2⟩))).live.length ≤ 1 :=
  ⟨⟨_, _, rfl⟩,
   (at_most_one_live_timeline
      (run [Action.scroll (4 / 5), Action.scroll (1 / 2), Action.complete 0]
        (init (initialWorld ⟨some 0, some 1, some 2⟩)))
      ⟨_, _, rfl⟩).1⟩

/-! ### Holding the progress fixed -/

theorem hold_succ (p : ℚ) (n : Nat) (w : World) :
    hold p (n + 1) w = onScroll p (hold p n w) := by
  induction n generalizing w with
  | zero => rfl
  | succ k ih =>
    show hold p (k + 1) (onScroll p w) = onScroll p (hold p k (onScroll p w))
    exact ih (onScroll p w)

/-- A scroll tick touches neither the element cache nor the thresholds. -/
theorem onScroll_frame (p : ℚ) (w : World) :
    (onScroll p w).animationState.elements = w.animationState.elements ∧
    (onScroll p w).animationState.revealThreshold = w.animationState.revealThreshold ∧
    (onScroll p w).animationState.hideThreshold = w.animationState.hideThreshold := by
  rcases onScroll_cases p w with ⟨_, _, he⟩ | ⟨_, _, he⟩ | ⟨_, _, he⟩
  · rw [he]; exact revealSection_frame w
  · rw [he]; exact hideSection_frame w
  · rw [he]; exact ⟨rfl, rfl, rfl⟩

theorem hold_frame (p : ℚ) (n : Nat) (w : World) :
    (hold p n w).animationState.elements = w.animationState.elements ∧
    (hold p n w).animationState.revealThreshold = w.animationState.revealThreshold ∧
    (hold p n w).animationState.hideThreshold = w.animationState.hideThreshold := by
  induction n generalizing w with
  | zero => exact ⟨rfl, rfl, rfl⟩
  | succ k ih =>
    obtain ⟨h1, h2, h3⟩ := ih (onScroll p w)
    obtain ⟨f1, f2, f3⟩ := onScroll_frame p w
    exact ⟨h1.trans f1, h2.trans f2, h3.trans f3⟩

/-- With `hideThreshold <= revealThreshold`, a second tick at the same progress
changes nothing. -/
theorem onScroll_onScroll (p : ℚ) (w : World)
    (hle : w.animationState.hideThreshold ≤ w.animationState.revealThreshold) :
    onScroll p (onScroll p w) = onScroll p w := by
  obtain ⟨_, f2, f3⟩ := onScroll_frame p w
  cases hel : w.animationState.elements with
  | none =>
    have he : onScroll p w = w := by
      rcases onScroll_cases p w with ⟨_, _, he⟩ | ⟨_, _, he⟩ | ⟨_, _, he⟩
      · rw [he]; unfold revealSection; simp [hel]
      · rw [he]; unfold hideSection; simp [hel]
      · exact he
    rw [he, he]
  | some els =>
    rcases onScroll_cases p w with ⟨_, hp, he⟩ | ⟨_, hp, he⟩ | ⟨_, _, he⟩
    · apply onScroll_visible_of_ge
      · rw [he]; exact revealSection_isVisible w els hel
      · rw [f3]; exact le_trans hle hp
    · apply onScroll_hidden_of_lt
      · rw [he]; exact hideSection_isVisible w els hel
      · rw [f2]; exact lt_of_lt_of_le hp hle
    · rw [he, he]

theorem hold_eq_hold_one (p : ℚ) (w : World)
    (hle : w.animationState.hideThreshold ≤ w.animationState.revealThreshold)
    (n : Nat) : hold p (n + 1) w = hold p 1 w := by
  induction n with
  | zero => rfl
  | succ k ih =>
    rw [hold_succ, ih]
    exact onScroll_onScroll p w hle

/-- A tick that changes the visibility flag found the state Hidden with the
progress at or above `revealThreshold`, or Visible with the progress below
`hideThreshold`. -/
theorem onScroll_flip_cases (p : ℚ) (w : World)
    (hflip : (onScroll p w).animationState.isVisible ≠ w.animationState.isVisible) :
    (w.animationState.isVisible = false ∧ w.animationState.revealThreshold ≤ p) ∨
    (w.animationState.isVisible = true ∧ p < w.animationState.hideThreshold) := by
  rcases onScroll_cases p w with ⟨hv, hp, _⟩ | ⟨hv, hp, _⟩ | ⟨_, _, he⟩
  · exact Or.inl ⟨hv, hp⟩
  · exact Or.inr ⟨hv, hp⟩
  · rw [he] at hflip; exact absurd rfl hflip

/-- Inside the window `revealThreshold <= p < hideThreshold`, once the element
cache is set, every tick flips the visibility flag and fires Enter from Hidden
and Exit from Visible. -/
theorem onScroll_flip_of_window (p : ℚ) (w : World)
    (hinit : w.animationState.elements ≠ none)
    (hr : w.animationState.revealThreshold ≤ p)
    (hh : p < w.animationState.hideThreshold) :
    (onScroll p w).animationState.isVisible = !w.animationState.isVisible ∧
    transitionFired p w =
      if w.animationState.isVisible then Transition.Exit else Transition.Enter := by
  obtain ⟨els, hel⟩ := Option.ne_none_iff_exists'.mp hinit
  cases hv : w.animationState.isVisible
  · obtain ⟨he, hf⟩ := onScroll_enter p w els hel hv hr
    rw [he, hf]
    exact ⟨revealSection_isVisible w els hel, rfl⟩
  · obtain ⟨he, hf⟩ := onScroll_exit p w els hel hv hh
    rw [he, hf]
    exact ⟨hideSection_isVisible w els hel, rfl⟩

/-- C11: hold the progress at `p` and call `onScroll(p)` repeatedly, from any
state in which the element cache is set.  If `hideThreshold <= revealThreshold`
only the first call can change anything: every later call fires nothing, and
the visibility flag changes at most once over the whole run.  The flag flips on
every single call if and only if `revealThreshold <= p < hideThreshold`; this
forces `hideThreshold > revealThreshold`, and the calls then fire Enter from
Hidden and Exit from Visible, alternating for ever. -/
theorem hold_oscillation (p : ℚ) (w : World)
    (hinit : w.animationState.elements ≠ none) :
    (w.animationState.hideThreshold ≤ w.animationState.revealThreshold →
      (∀ n, hold p (n + 1) w = hold p 1 w) ∧
      (∀ n, 1 ≤ n → transitionFired p (hold p n w) = Transition.None) ∧
      (∀ i j, i < j → visibleAfter p (i + 1) w ≠ visibleAfter p i w →
        visibleAfter p (j + 1) w = visibleAfter p j w)) ∧
    ((∀ n, visibleAfter p (n + 1) w ≠ visibleAfter p n w) ↔
      (w.animationState.revealThreshold ≤ p ∧ p < w.animationState.hideThreshold)) ∧
    ((w.animationState.revealThreshold ≤ p ∧ p < w.animationState.hideThreshold) →
      w.animationState.revealThreshold < w.animationState.hideThreshold ∧
      ∀ n, transitionFired p (hold p n w) =
        if visibleAfter p n w then Transition.Exit else Transition.Enter) := by
  have hwin : (w.animationState.revealThreshold ≤ p ∧
        p < w.animationState.hideThreshold) →
      ∀ n, visibleAfter p (n + 1) w = (!visibleAfter p n w) ∧
        transitionFired p (hold p n w) =
          if visibleAfter p n w then Transition.Exit else Transition.Enter := by
    rintro ⟨hr, hh⟩ n
    obtain ⟨f1, f2, f3⟩ := hold_frame p n w
    have h := onScroll_flip_of_window p (hold p n w) (by rw [f1]; exact hinit)
      (by rw [f2]; exact hr) (by rw [f3]; exact hh)
    unfold visibleAfter
    rw [hold_succ]
    exact h
  refine ⟨?_, ⟨?_, ?_⟩, ?_⟩
  · intro hle
    have hfix := hold_eq_hold_one p w hle
    refine ⟨hfix, ?_, ?_⟩
    · intro n hn
      obtain ⟨k, rfl⟩ : ∃ k, n = k + 1 := ⟨n - 1, by omega⟩
      apply transitionFired_of_onScroll_eq
      rw [← hold_succ, hfix (k + 1), hfix k]
    · intro i j hij _
      obtain ⟨k, rfl⟩ : ∃ k, j = k + 1 := ⟨j - 1, by omega⟩
      unfold visibleAfter
      rw [hfix (k + 1), hfix k]
  · intro hall
    have h0 := hall 0
    have h1 := hall 1
    unfold visibleAfter at h0 h1
    rw [hold_succ] at h0 h1
    obtain ⟨_, f2, f3⟩ := hold_frame p 1 w
    have c0 := onScroll_flip_cases p (hold p 0 w) h0
    have c1 := onScroll_flip_cases p (hold p 1 w) h1
    rw [f2, f3] at c1
    have hw0 : hold p 0 w = w := rfl
    rw [hw0] at c0 h0
    have hw1 : hold p 1 w = onScroll p w := rfl
    rw [hw1] at c1
    rcases c0 with ⟨hv0, hr⟩ | ⟨hv0, hh⟩
    · rcases c1 with ⟨hv1, _⟩ | ⟨_, hh⟩
      · rw [hv0, hv1] at h0; exact absurd rfl h0
      · exact ⟨hr, hh⟩
    · rcases c1 with ⟨_, hr⟩ | ⟨hv1, _⟩
      · exact ⟨hr, hh⟩
      · rw [hv0, hv1] at h0; exact absurd rfl h0
  · intro hwd n
    rw [(hwin hwd n).1]
    cases visibleAfter p n w <;> decide
  · intro hwd
    exact ⟨lt_of_le_of_lt hwd.1 hwd.2, fun n => (hwin hwd n).2⟩

/-- Witness for C11: on the default page (thresholds 0.7 and 0.69) held at
progress 0.8, the second and all later calls leave the world as the first call
left it; with the thresholds misconfigured to reveal at 0.3 and hide below 0.6,
holding the progress at 0.5 flips the flag on the first call. -/
theorem hold_oscillation_witness :
    (init (initialWorld ⟨some 0, some 1, some 2⟩)).animationState.elements ≠ none ∧
    hold (4 / 5) 3 (init (initialWorld ⟨some 0, some 1, some 2⟩)) =
      hold (4 / 5) 1 (init (initialWorld ⟨some 0, some 1, some 2⟩)) ∧
    visibleAfter (1 / 2) 1
        { init (initialWorld ⟨some 0, some 1, some 2⟩) with
          animationState :=
            setThresholds (3 / 10) (3 / 5)
              (init (initialWorld ⟨some 0, some 1, some 2⟩)).animationState } ≠
      visibleAfter (1 / 2) 0
        { init (initialWorld ⟨some 0, some 1, some 2⟩) with
          animationState :=
            setThresholds (3 / 10) (3 / 5)
              (init (initialWorld ⟨some 0, some 1, some 2⟩)).animationState } :=
  ⟨by decide,
   ((hold_oscillation (4 / 5) (init (initialWorld ⟨some 0, some 1, some 2⟩))
      (by decide)).1
      (by norm_num [init, setInitialState, initializeElements, initialWorld,
            initialAnimationState])).1 2,
   (hold_oscillation (1 / 2)
      { init (initialWorld ⟨some 0, some 1, some 2⟩) with
        animationState :=
          setThresholds (3 / 10) (3 / 5)
            (init (initialWorld ⟨some 0, some 1, some 2⟩)).animationState }
      (by decide)).2.1.mpr
      (by norm_num [init, setInitialState, initializeElements, initialWorld,
            initialAnimationState, setThresholds, setHideThreshold,
            setRevealThreshold]) 0⟩

/-! ### Materials and shadows -/

/-- C12: a mesh named `Platform1` (its lower-cased name contains `platform1`
and none of `box1` .. `box5`) comes out of `applyMaterialsToObjects` with
`receiveShadow = true` and `castShadow = true`: the platform branch makes it a
shadow caster, unlike the wall branch, which leaves `castShadow = false`. -/
theorem applyMaterials_platform_casts :
    nameIncludes ⟨true, "Platform1", Material.loaded none, false, false⟩ "platform1" = true ∧
    (∀ pat ∈ ["box1", "box2", "box3", "box4", "box5"],
      nameIncludes ⟨true, "Platform1", Material.loaded none, false, false⟩ pat = false) ∧
    applyMaterialsToObjects [⟨true, "Platform1", Material.loaded none, false, false⟩] =
      [⟨true, "Platform1", Material.blue, true, true⟩] ∧
    applyMaterialsToObjects [⟨true, "Wall", Material.loaded none, true, false⟩] =
      [⟨true, "Wall", Material.lightBlue, false, true⟩] := by
  refine ⟨by decide, by decide, by decide, by decide⟩

/-! ### The camera's field of view, over the reals -/

/-- The unclamped vertical field of view keeps the horizontal field of view of
the base camera at 16:9. -/
theorem targetVerticalFov_tan (a : ℝ) (camera : Camera ℝ) (ha : a ≠ 0) :
    Real.tan (targetVerticalFov Real.tan Real.arctan Real.pi a camera *
        Real.pi / 180 / 2) * a =
      Real.tan (baseFov camera * Real.pi / 180 / 2) * (16 / 9) := by
  have h1 : ∀ x : ℝ, 2 * Real.arctan x / 2 = Real.arctan x := by
    intro x; ring
  have h2 : ∀ y : ℝ,
      2 * Real.arctan y * 180 / Real.pi * Real.pi / 180 / 2 = Real.arctan y := by
    intro y
    field_simp [Real.pi_ne_zero]
  unfold targetVerticalFov
  simp only
  rw [h1, Real.tan_arctan, h2, Real.tan_arctan]
  field_simp
  ring

/-- For a positive aspect and a base field of view strictly between 0 and 180
degrees the unclamped vertical field of view is strictly between 0 and 180
degrees. -/
theorem targetVerticalFov_range (a : ℝ) (camera : Camera ℝ) (ha : 0 < a)
    (hb0 : 0 < baseFov camera) (hb1 : baseFov camera < 180) :
    0 < targetVerticalFov Real.tan Real.arctan Real.pi a camera ∧
    targetVerticalFov Real.tan Real.arctan Real.pi a camera < 180 := by
  have hpi := Real.pi_pos
  have h1 : ∀ x : ℝ, 2 * Real.arctan x / 2 = Real.arctan x := by
    intro x; ring
  have hx : 0 < Real.tan (baseFov camera * Real.pi / 180 / 2) := by
    apply Real.tan_pos_of_pos_of_lt_pi_div_two
    · positivity
    · have : baseFov camera * Real.pi < 180 * Real.pi :=
        mul_lt_mul_of_pos_right hb1 hpi
      linarith
  unfold targetVerticalFov
  simp only
  rw [h1, Real.tan_arctan]
  have hy : 0 < Real.tan (baseFov camera * Real.pi / 180 / 2) * (16 / 9) / a := by
    positivity
  have hpos : 0 < Real.arctan
      (Real.tan (baseFov camera * Real.pi / 180 / 2) * (16 / 9) / a) := by
    have := Real.arctan_strictMono hy
    rwa [Real.arctan_zero] at this
  have hlt := Real.arctan_lt_pi_div_two
      (Real.tan (baseFov camera * Real.pi / 180 / 2) * (16 / 9) / a)
  constructor
  · positivity
  · rw [div_lt_iff₀ hpi]
    linarith

/-- The tangent of an angle between 0 and 75 degrees is at most 6. -/
theorem tan_le_six (θ : ℝ) (h0 : 0 ≤ θ) (h1 : θ ≤ 5 * Real.pi / 12) :
    Real.tan θ ≤ 6 := by
  have hpi := Real.pi_pos
  have hcos : (1 : ℝ) / 6 ≤ Real.cos (5 * Real.pi / 12) := by
    have hs := Real.mul_le_sin (x := Real.pi / 12) (by positivity) (by linarith)
    have he : 2 / Real.pi * (Real.pi / 12) = 1 / 6 := by
      field_simp
      ring
    have hc : Real.cos (5 * Real.pi / 12) = Real.sin (Real.pi / 12) := by
      rw [← Real.sin_pi_div_two_sub]
      congr 1
      ring
    rw [hc, ← he]
    exact hs
  have htop : Real.tan (5 * Real.pi / 12) ≤ 6 := by
    rw [Real.tan_eq_sin_div_cos]
    have hc0 : 0 < Real.cos (5 * Real.pi / 12) := lt_of_lt_of_le (by norm_num) hcos
    rw [div_le_iff₀ hc0]
    have := Real.sin_le_one (5 * Real.pi / 12)
    linarith
  rcases eq_or_lt_of_le h1 with heq | hlt
  · rw [heq]; exact htop
  · have := Real.tan_lt_tan_of_lt_of_lt_pi_div_two (x := θ) (y := 5 * Real.pi / 12)
      (by linarith) (by linarith) hlt
    linarith

/-- On a 16:9 viewport a camera with a base field of view of 90 degrees keeps
its 90 degrees. -/
theorem targetVerticalFov_base_aspect :
    targetVerticalFov Real.tan Real.arctan Real.pi (16 / 9)
      { aspect := 1, fov := 50, originalFov := some 90 } = 90 := by
  have hb : baseFov ({ aspect := 1, fov := 50, originalFov := some 90 } : Camera ℝ) = 90 := by
    norm_num [baseFov]
  have h4 : (90 : ℝ) * Real.pi / 180 / 2 = Real.pi / 4 := by ring
  have h1 : ∀ x : ℝ, 2 * Real.arctan x / 2 = Real.arctan x := by
    intro x; ring
  have h9 : (1 : ℝ) * (16 / 9) / (16 / 9) = 1 := by norm_num
  unfold targetVerticalFov
  simp only
  rw [hb, h4, Real.tan_pi_div_four, h1, Real.tan_arctan, h9, Real.arctan_one]
  field_simp [Real.pi_ne_zero]
  ring

/-- C13 fails as stated: with a base field of view of 90 degrees and a 16 by 90
viewport the stored vertical field of view does not keep the horizontal field
of view: `tan(v/2) * (16/90)` differs from `tan(45 degrees) * (16/9)`. -/
theorem updateCamera_clamped_breaks_identity :
    ¬ (Real.tan ((updateCameraForAspectRatio Real.tan Real.arctan Real.pi 16 90
          { aspect := 1, fov := 50, originalFov := some 90 }).fov *
            Real.pi / 180 / 2) * (16 / 90) =
        Real.tan (90 * Real.pi / 180 / 2) * (16 / 9)) := by
  intro h
  have hpi := Real.pi_pos
  have h4 : (90 : ℝ) * Real.pi / 180 / 2 = Real.pi / 4 := by ring
  rw [h4, Real.tan_pi_div_four] at h
  have hlo : (20 : ℝ) ≤ (updateCameraForAspectRatio Real.tan Real.arctan Real.pi 16 90
      { aspect := 1, fov := 50, originalFov := some 90 }).fov := le_max_right _ _
  have hhi : (updateCameraForAspectRatio Real.tan Real.arctan Real.pi 16 90
      { aspect := 1, fov := 50, originalFov := some 90 }).fov ≤ 150 :=
    max_le (min_le_right _ _) (by norm_num)
  generalize (updateCameraForAspectRatio Real.tan Real.arctan Real.pi 16 90
      { aspect := 1, fov := 50, originalFov := some 90 }).fov = v at h hlo hhi
  have hle := tan_le_six (v * Real.pi / 180 / 2) (by positivity) (by
    have : v * Real.pi ≤ 150 * Real.pi := mul_le_mul_of_nonneg_right hhi hpi.le
    linarith)
  linarith

/-- C13, amended: for a viewport of positive width and height (aspect ratio
`a = width / height`) and a base vertical field of view `b` strictly between 0
and 180 degrees, `updateCameraForAspectRatio` stores `a` as the aspect and
stores as `fov` the unclamped value `v0 = 2 atan(tan(b/2) * (16/9) / a)`
clamped to `[20, 150]` degrees, so the stored value always lies in `[20, 150]`.
The unclamped value lies strictly between 0 and 180 degrees and keeps the
horizontal field of view, `tan(v0/2) * a = tan(b/2) * (16/9)`; the stored value
keeps it whenever `v0` itself lies in `[20, 150]`. -/
theorem updateCamera_fov (width height : ℝ) (camera : Camera ℝ)
    (hw : 0 < width) (hh : 0 < height)
    (hb0 : 0 < baseFov camera) (hb1 : baseFov camera < 180) :
    (updateCameraForAspectRatio Real.tan Real.arctan Real.pi width height camera).aspect =
      width / height ∧
    (updateCameraForAspectRatio Real.tan Real.arctan Real.pi width height camera).fov =
      max (min (targetVerticalFov Real.tan Real.arctan Real.pi (width / height) camera)
        150) 20 ∧
    20 ≤ (updateCameraForAspectRatio Real.tan Real.arctan Real.pi width height camera).fov ∧
    (updateCameraForAspectRatio Real.tan Real.arctan Real.pi width height camera).fov ≤
      150 ∧
    0 < targetVerticalFov Real.tan Real.arctan Real.pi (width / height) camera ∧
    targetVerticalFov Real.tan Real.arctan Real.pi (width / height) camera < 180 ∧
    Real.tan (targetVerticalFov Real.tan Real.arctan Real.pi (width / height) camera *
        Real.pi / 180 / 2) * (width / height) =
      Real.tan (baseFov camera * Real.pi / 180 / 2) * (16 / 9) ∧
    (20 ≤ targetVerticalFov Real.tan Real.arctan Real.pi (width / height) camera →
      targetVerticalFov Real.tan Real.arctan Real.pi (width / height) camera ≤ 150 →
      Real.tan ((updateCameraForAspectRatio Real.tan Real.arctan Real.pi width height
          camera).fov * Real.pi / 180 / 2) * (width / height) =
        Real.tan (baseFov camera * Real.pi / 180 / 2) * (16 / 9)) := by
  have ha : 0 < width / height := div_pos hw hh
  have hid := targetVerticalFov_tan (width / height) camera ha.ne'
  obtain ⟨hr0, hr1⟩ := targetVerticalFov_range (width / height) camera ha hb0 hb1
  have hfov : (updateCameraForAspectRatio Real.tan Real.arctan Real.pi width height
      camera).fov =
      max (min (targetVerticalFov Real.tan Real.arctan Real.pi (width / height) camera)
        150) 20 := rfl
  refine ⟨rfl, hfov, ?_, ?_, hr0, hr1, hid, ?_⟩
  · rw [hfov]; exact le_max_right _ _
  · rw [hfov]; exact max_le (min_le_right _ _) (by norm_num)
  · intro h20 h150
    rw [hfov, min_eq_left h150, max_eq_left h20]
    exact hid

/-- Witness for the amended C13: a camera with a base field of view of 90
degrees on a 16 by 9 viewport; the unclamped value is 90 degrees, no clamp
applies, and the stored value keeps the horizontal field of view. -/
theorem updateCamera_fov_witness :
    (20 : ℝ) ≤ (updateCameraForAspectRatio Real.tan Real.arctan Real.pi 16 9
        { aspect := 1, fov := 50, originalFov := some 90 }).fov ∧
    Real.tan ((updateCameraForAspectRatio Real.tan Real.arctan Real.pi 16 9
        { aspect := 1, fov := 50, originalFov := some 90 }).fov *
          Real.pi / 180 / 2) * (16 / 9) =
      Real.tan (baseFov ({ aspect := 1, fov := 50, originalFov := some 90 } : Camera ℝ) *
        Real.pi / 180 / 2) * (16 / 9) :=
  ⟨(updateCamera_fov 16 9 { aspect := 1, fov := 50, originalFov := some 90 }
      (by norm_num) (by norm_num) (by norm_num [baseFov]) (by norm_num [baseFov])).2.2.1,
   (updateCamera_fov 16 9 { aspect := 1, fov := 50, originalFov := some 90 }
      (by norm_num) (by norm_num) (by norm_num [baseFov])
      (by norm_num [baseFov])).2.2.2.2.2.2.2
      (by rw [targetVerticalFov_base_aspect]; norm_num)
      (by rw [targetVerticalFov_base_aspect]; norm_num)⟩

end ScrollAnimation
